import Mathlib

/-!
Shallow embedding of the weather ETL pipeline in src/etl_wheather.py.

The embedding follows the source function by function:

* dates are calendar dates compared lexicographically, as Python compares
  datetime.date values;
* the watermark dictionary last_dates (city name -> "YYYY-MM-DD" string) is
  modelled as an association list from city name to parsed date: the code only
  ever stores strftime("%Y-%m-%d") output and re-reads it with the same format,
  so the string round-trip is the identity and the parsed date is kept directly;
* HTTP calls are modelled by their observable outcome: a payload, or a
  requests.exceptions.RequestException (the only exception the source catches);
* the strptime call on the remote forecast date string is modelled by its
  outcome, an Except Unit Date: Except.error is a ValueError raised on a
  malformed date string, which the source does not catch;
* temperatures and coordinates are rationals; Series.round(1) is numpy
  round-half-to-even at one decimal;
* pandas dataframes read from the bronze Delta tables are lists of rows in
  append order, and write_deltalake(mode="append") is list concatenation.
-/

set_option linter.unusedVariables false

/-- Calendar date as in Python datetime.date (validity of month and day is the
remote source's concern and plays no role in the comparisons). -/
structure Date where
  year : Nat
  month : Nat
  day : Nat
deriving DecidableEq, Repr

/-- Strict comparison of dates, lexicographic on (year, month, day), as Python
compares datetime.date values. -/
def Date.lt (a b : Date) : Prop :=
  a.year < b.year ∨
    (a.year = b.year ∧ (a.month < b.month ∨ (a.month = b.month ∧ a.day < b.day)))

instance : LT Date := ⟨Date.lt⟩

theorem Date.lt_def (a b : Date) :
    a < b ↔ (a.year < b.year ∨
      (a.year = b.year ∧ (a.month < b.month ∨ (a.month = b.month ∧ a.day < b.day)))) :=
  Iff.rfl

instance (a b : Date) : Decidable (a < b) := by
  rw [Date.lt_def]; infer_instance

theorem Date.not_lt_self (a : Date) : ¬ a < a := by
  simp only [Date.lt_def]; omega

theorem Date.lt_trans' {a b c : Date} (h₁ : a < b) (h₂ : b < c) : a < c := by
  simp only [Date.lt_def] at *; omega

theorem Date.lt_total (a b : Date) : a < b ∨ a = b ∨ b < a := by
  rcases a with ⟨y₁, m₁, d₁⟩; rcases b with ⟨y₂, m₂, d₂⟩
  simp only [Date.lt_def, Date.mk.injEq]; omega

/-- Raising a lower bound on a date is preserved by any watermark increase. -/
theorem Date.not_lt_mono {d e₁ e₂ : Date} (h : ¬ e₁ < d) (m : e₁ = e₂ ∨ e₁ < e₂) :
    ¬ e₂ < d := by
  intro hlt
  rcases m with rfl | hm
  · exact h hlt
  · exact h (Date.lt_trans' hm hlt)

/-- From a lower bound d ≤ b (phrased as the comparison the code makes) and
b < c conclude d < c. -/
theorem Date.lt_of_not_lt_of_lt {a b c : Date} (hab : ¬ b < a) (hbc : b < c) : a < c := by
  rcases Date.lt_total a b with h | rfl | h
  · exact Date.lt_trans' h hbc
  · exact hbc
  · exact absurd h hab

instance {ε α : Type} [DecidableEq ε] [DecidableEq α] : DecidableEq (Except ε α) :=
  fun a b =>
    match a, b with
    | .ok x, .ok y =>
      if h : x = y then .isTrue (by rw [h]) else .isFalse (fun hh => h (Except.ok.inj hh))
    | .error x, .error y =>
      if h : x = y then .isTrue (by rw [h]) else .isFalse (fun hh => h (Except.error.inj hh))
    | .ok _, .error _ => .isFalse (fun hh => Except.noConfusion hh)
    | .error _, .ok _ => .isFalse (fun hh => Except.noConfusion hh)

/-- Python exceptions that can escape the fragments of the source modelled
here.  A ValueError comes from datetime.strptime on malformed input, a
JSONDecodeError from json.load on a malformed watermark file; neither is
caught by the source, so both abort the run. -/
inductive PyExn where
  | valueError : PyExn
  | jsonDecodeError : PyExn
deriving DecidableEq, Repr

/-- Outcome of json.load on the watermark file contents. -/
inductive JsonError where
  | decodeError : JsonError
deriving DecidableEq, Repr

/-- The in-memory watermark dictionary last_dates: city name, last ingested
forecast date.  The persisted JSON stores the date as a "%Y-%m-%d" string;
since the code itself writes those strings with strftime of the same format,
the entry is modelled by the parsed date. -/
abbrev Watermark := List (String × Date)

/-- Dictionary lookup, last_dates.get(city). -/
def wmGet : Watermark → String → Option Date
  | [], _ => none
  | (k, v) :: rest, c => if k = c then some v else wmGet rest c

/-- Dictionary update, last_dates[city] = d. -/
def wmSet : Watermark → String → Date → Watermark
  | [], c, d => [(c, d)]
  | (k, v) :: rest, c, d => if k = c then (c, d) :: rest else (k, v) :: wmSet rest c d

/-- Line 91 of the source: last_dates.get(city_name, "1900-01-01") parsed with
"%Y-%m-%d" — the far-past sentinel is the default when the city has no entry. -/
def lastDateOf (w : Watermark) (c : String) : Date :=
  (wmGet w c).getD ⟨1900, 1, 1⟩

/-- State of the persisted watermark file metadata/last_extracted_dates.json:
the file may be missing, or hold content whose json.load outcome is a mapping
or a decode error. -/
inductive WmFileState where
  | missing : WmFileState
  | present : Except JsonError Watermark → WmFileState
deriving DecidableEq

/-- Source load_last_extracted_dates: json.load inside try, with only
FileNotFoundError caught (returning the empty dict); a JSONDecodeError from
malformed content propagates. -/
def load_last_extracted_dates : WmFileState → Except PyExn Watermark
  | .missing => .ok []
  | .present (.ok w) => .ok w
  | .present (.error _) => .error .jsonDecodeError

/-- Source save_last_extracted_dates: overwrites the whole file with the
mapping, which subsequently parses back to exactly that mapping. -/
def save_last_extracted_dates (w : Watermark) : WmFileState :=
  .present (.ok w)

/-- Observable outcome of a requests.get call (plus raise_for_status and
response.json()): a payload, or a requests.exceptions.RequestException. -/
inductive ReqResult (α : Type) where
  | ok : α → ReqResult α
  | requestError : ReqResult α
deriving DecidableEq

/-- Response of the location search endpoint: the list of result Key fields
(data, of which data[0]['Key'] is taken), or a request error. -/
inductive LocResponse where
  | ok : List String → LocResponse
  | requestError : LocResponse
deriving DecidableEq

/-- Source get_location_key: data[0]['Key'] when the result list is nonempty,
None when it is empty ("No se encontraron resultados") and None on a
RequestException (caught and logged). -/
def get_location_key : LocResponse → Option String
  | .ok [] => none
  | .ok (k :: _) => some k
  | .requestError => none

/-- Fields of forecast_data['DailyForecasts'][0] that the source reads.
dateParse is the outcome of strptime(Date, "%Y-%m-%dT%H:%M:%S%z").date():
Except.error models the ValueError raised on a malformed date string. -/
structure ForecastPayload where
  dateParse : Except Unit Date
  min_temp : ℚ
  max_temp : ℚ
  unit : String
  day_icon : Int
  day_phrase : String
  night_icon : Int
  night_phrase : String
deriving DecidableEq

/-- Row of the bronze forecast dataset, the dict built in extract_forecast. -/
structure ForecastRow where
  city : String
  date : Date
  min_temp : ℚ
  max_temp : ℚ
  unit : String
  day_icon : Int
  day_phrase : String
  night_icon : Int
  night_phrase : String
deriving DecidableEq

/-- Fields of the city-detail payload that survive into the bronze detail
dataset columns the silver transform later projects. -/
structure CityDetailPayload where
  countryID : String
  countryEnglishName : String
  latitude : ℚ
  longitude : ℚ
  gmtOffset : ℚ
deriving DecidableEq

/-- Row of the bronze city-detail dataset after main's json round-trip,
json_normalize and the "details:." column rename: the city key, the country
column added in main, and the flattened detail fields used by the transform. -/
structure CityDetailRow where
  city : String
  country : String
  countryID : String
  countryEnglishName : String
  latitude : ℚ
  longitude : ℚ
  gmtOffset : ℚ
deriving DecidableEq

/-- Row of the silver dataset after projection and rename (transformations 5
and 6); detail-side fields are Option because a left join leaves them null
when no city-detail row matches. -/
structure SilverRow where
  City : String
  date : Date
  min_temp_F : ℚ
  min_temp_C : ℚ
  avg_temp_min_C : ℚ
  max_temp_F : ℚ
  max_temp_C : ℚ
  avg_temp_max_C : ℚ
  pais_id : Option String
  pais_nombre : Option String
  geo_lat : Option ℚ
  geo_lon : Option ℚ
  gmt_utc : Option ℚ
deriving DecidableEq

/-- The record literal returned by extract_forecast on acceptance. -/
def mkForecastRow (city : String) (d : Date) (fd : ForecastPayload) : ForecastRow :=
  { city := city, date := d, min_temp := fd.min_temp, max_temp := fd.max_temp,
    unit := fd.unit, day_icon := fd.day_icon, day_phrase := fd.day_phrase,
    night_icon := fd.night_icon, night_phrase := fd.night_phrase }

/-- Source extract_forecast, with the HTTP call abstracted to its outcome.
The location_key and api_key parameters only build the URL and are dropped.
Control flow mirrors the source: the watermark string is parsed before the
try block; a RequestException is caught and yields None with the watermark
untouched; the strptime of the forecast date raises an uncaught ValueError on
malformed input; otherwise the record is accepted iff its date is strictly
newer than the watermark, advancing the watermark entry on acceptance. -/
def extract_forecast (response : ReqResult ForecastPayload) (city_name : String)
    (last_dates : Watermark) : Except PyExn (Option ForecastRow × Watermark) :=
  let last_date := lastDateOf last_dates city_name
  match response with
  | .requestError => .ok (none, last_dates)
  | .ok fd =>
    match fd.dateParse with
    | .error _ => .error .valueError
    | .ok forecast_date =>
      if last_date < forecast_date then
        .ok (some (mkForecastRow city_name forecast_date fd),
             wmSet last_dates city_name forecast_date)
      else
        .ok (none, last_dates)

/-- Source get_city_details: the payload, or None on a RequestException. -/
def get_city_details : ReqResult CityDetailPayload → Option CityDetailPayload
  | .ok p => some p
  | .requestError => none

/-- The country_info entry appended in main, after the JSON round-trip and
flattening performed before the bronze write. -/
def mkDetailRow (city : String) (p : CityDetailPayload) : CityDetailRow :=
  { city := city, country := p.countryEnglishName, countryID := p.countryID,
    countryEnglishName := p.countryEnglishName, latitude := p.latitude,
    longitude := p.longitude, gmtOffset := p.gmtOffset }

/-- Celsius conversion of transformation 1: (f - 32) * 5 / 9. -/
def toCelsius (f : ℚ) : ℚ := (f - 32) * 5 / 9

/-- Nearest integer with ties to even, as numpy rounds. The first branch
condition uses the floor of x, which for a rational is num / den with integer
(floor) division. -/
def roundHalfEven (x : ℚ) : ℤ :=
  let n : ℤ := x.num / (x.den : ℤ)
  if x - (n : ℚ) < 1/2 then n
  else if (1 : ℚ)/2 < x - (n : ℚ) then n + 1
  else if n % 2 = 0 then n else n + 1

/-- Series.round(1): round half to even at one decimal place. -/
def round1 (x : ℚ) : ℚ := (roundHalfEven (x * 10) : ℚ) / 10

/-- Series.mean over a dataframe column. On the empty column pandas yields
NaN, modelled here by the rational 0/0 = 0; the value is unobservable because
the transform produces no output on an empty read. -/
def meanQ (xs : List ℚ) : ℚ := xs.sum / xs.length

/-- One silver row: the forecast-side columns of the merged row (including
the per-row converted temperatures of transformations 1-2 and the broadcast
batch means of transformation 3), the detail-side columns (None when the left
join found no match), projected and renamed per transformations 5-6. -/
def silver_of (l : ForecastRow) (m : Option CityDetailRow) (avgMin avgMax : ℚ) : SilverRow :=
  { City := l.city, date := l.date,
    min_temp_F := l.min_temp, min_temp_C := round1 (toCelsius l.min_temp),
    avg_temp_min_C := avgMin,
    max_temp_F := l.max_temp, max_temp_C := round1 (toCelsius l.max_temp),
    avg_temp_max_C := avgMax,
    pais_id := m.map (·.countryID), pais_nombre := m.map (·.countryEnglishName),
    geo_lat := m.map (·.latitude), geo_lon := m.map (·.longitude),
    gmt_utc := m.map (·.gmtOffset) }

/-- The pd.merge(df, df_cities, on='city', how='left') of transformation 4,
fused with the row-wise projection and rename of transformations 5-6 (both
are per-row column operations): each forecast row in order, paired with every
matching city-detail row in order, or with no detail (null columns) when none
matches. -/
def mergeProject (ds : List CityDetailRow) (avgMin avgMax : ℚ) :
    List ForecastRow → List SilverRow
  | [] => []
  | l :: ls =>
    (match ds.filter (fun r => r.city == l.city) with
     | [] => [silver_of l none avgMin avgMax]
     | ms => ms.map (fun r => silver_of l (some r) avgMin avgMax)) ++
    mergeProject ds avgMin avgMax ls

/-- Source transform_data, with the two full bronze reads passed in as the
lists of rows they contain at invocation time.  The batch means are computed
over the whole forecast read (columns already rounded by transformation 2,
then the scalar mean rounded again).  The merge runs only when both
dataframes are nonempty; otherwise df_combined is never bound, the projection
raises UnboundLocalError, the except clause catches it and the function
returns None.  (A failed Delta read of a missing dataset is caught by the
same clause and also yields None.) -/
def transform_data (df : List ForecastRow) (df_cities : List CityDetailRow) :
    Option (List SilverRow) :=
  let avgMin := round1 (meanQ (df.map (fun r => round1 (toCelsius r.min_temp))))
  let avgMax := round1 (meanQ (df.map (fun r => round1 (toCelsius r.max_temp))))
  if !df.isEmpty && !df_cities.isEmpty then
    some (mergeProject df_cities avgMin avgMax df)
  else
    none

/-- Remote responses observed for one city during one run: the location
search, the forecast endpoint and the city-detail endpoint. -/
structure CityFetch where
  city : String
  location : LocResponse
  forecast : ReqResult ForecastPayload
  details : ReqResult CityDetailPayload
deriving DecidableEq

/-- In-memory state threaded through main's per-city loop. -/
structure RunState where
  forecast_list : List ForecastRow
  country_info : List CityDetailRow
  last_dates : Watermark
deriving DecidableEq

/-- Body of main's for-loop for one city: resolve the location key (skipping
the city entirely when that fails), run the incremental forecast extraction
(whose ValueError, if any, propagates), then the full city-detail fetch. -/
def processCity (st : RunState) (cf : CityFetch) : Except PyExn RunState :=
  match get_location_key cf.location with
  | none => .ok st
  | some _ =>
    match extract_forecast cf.forecast cf.city st.last_dates with
    | .error e => .error e
    | .ok (forecast_data, w') =>
      let fl := match forecast_data with
        | some r => st.forecast_list ++ [r]
        | none => st.forecast_list
      let ci := match get_city_details cf.details with
        | some p => st.country_info ++ [mkDetailRow cf.city p]
        | none => st.country_info
      .ok ⟨fl, ci, w'⟩

/-- Main's for-loop over the city list. -/
def runCities (st : RunState) : List CityFetch → Except PyExn RunState
  | [] => .ok st
  | cf :: rest =>
    match processCity st cf with
    | .error e => .error e
    | .ok st' => runCities st' rest

/-- Persistent storage touched by one run: the watermark file and the three
Delta datasets, each a list of rows in append order. -/
structure Storage where
  wmFile : WmFileState
  bronze_forecasts : List ForecastRow
  bronze_details : List CityDetailRow
  silver : List SilverRow
deriving DecidableEq

/-- Source main as a storage transformer: load the watermark file (a decode
error aborts), loop over the cities (an uncaught ValueError aborts), save the
watermark file, append the accepted forecasts to bronze (guarded by
"if forecast_list:"), append the city-detail batch to bronze (the JSON
round-trip path runs unconditionally), then run transform_data on the full
bronze reads and append its output to silver unless it returned None. -/
def runPipeline (st : Storage) (fetches : List CityFetch) : Except PyExn Storage :=
  match load_last_extracted_dates st.wmFile with
  | .error e => .error e
  | .ok last_dates =>
    match runCities ⟨[], [], last_dates⟩ fetches with
    | .error e => .error e
    | .ok r =>
      let wmFile' := save_last_extracted_dates r.last_dates
      let bronzeF := if r.forecast_list.isEmpty then st.bronze_forecasts
                     else st.bronze_forecasts ++ r.forecast_list
      let bronzeD := st.bronze_details ++ r.country_info
      match transform_data bronzeF bronzeD with
      | none => .ok ⟨wmFile', bronzeF, bronzeD, st.silver⟩
      | some rows => .ok ⟨wmFile', bronzeF, bronzeD, st.silver ++ rows⟩

/-- Successive executions of the script against the same storage location. -/
def pipelineRuns (st : Storage) : List (List CityFetch) → Except PyExn Storage
  | [] => .ok st
  | f :: fs =>
    match runPipeline st f with
    | .error e => .error e
    | .ok st' => pipelineRuns st' fs

/-- City-detail row contributed by one city in one run: nothing when the
location key does not resolve or the detail fetch fails, one row otherwise. -/
def dcontrib (cf : CityFetch) : List CityDetailRow :=
  match get_location_key cf.location with
  | none => []
  | some _ =>
    match get_city_details cf.details with
    | some p => [mkDetailRow cf.city p]
    | none => []

/-- City-detail rows contributed by a whole run. -/
def dcontribAll : List CityFetch → List CityDetailRow
  | [] => []
  | cf :: rest => dcontrib cf ++ dcontribAll rest

/-- Forecast dates recorded for one city, in dataset (acceptance) order. -/
def datesFor (c : String) (l : List ForecastRow) : List Date :=
  (l.filter (fun r => r.city == c)).map (·.date)

/-- Pointwise ordering between the effective (sentinel-defaulted) entries of
two watermark states: w' dominates w. -/
def wmGe (w' w : Watermark) : Prop :=
  ∀ c, lastDateOf w c = lastDateOf w' c ∨ lastDateOf w c < lastDateOf w' c

/-- After a run, the watermark dominates every date the remote source
reported for a city during that run: re-presenting the same date cannot pass
the strict greater-than filter. -/
def settles (w : Watermark) (cf : CityFetch) : Prop :=
  ∀ fd d, get_location_key cf.location ≠ none → cf.forecast = ReqResult.ok fd →
    fd.dateParse = Except.ok d → ¬ lastDateOf w cf.city < d

/-- A city whose iteration completed without an exception had a parseable
forecast date whenever its forecast fetch succeeded. -/
def wellformedFetch (cf : CityFetch) : Prop :=
  get_location_key cf.location ≠ none →
    ∀ fd, cf.forecast = ReqResult.ok fd → ∃ d, fd.dateParse = Except.ok d

/-! Concrete sample data used by the closed witness and counterexample
theorems below. -/

/-- A well-formed forecast payload dated d. -/
def limaPayload (d : Date) : ForecastPayload :=
  { dateParse := .ok d, min_temp := 60, max_temp := 75, unit := "F",
    day_icon := 1, day_phrase := "Sunny", night_icon := 33, night_phrase := "Clear" }

/-- A forecast payload whose date string failed to parse (ValueError). -/
def malformedPayload : ForecastPayload :=
  { dateParse := .error (), min_temp := 60, max_temp := 75, unit := "F",
    day_icon := 1, day_phrase := "Sunny", night_icon := 33, night_phrase := "Clear" }

/-- A city-detail payload. -/
def sampleDetail : CityDetailPayload :=
  { countryID := "PE", countryEnglishName := "Peru", latitude := -12,
    longitude := -77, gmtOffset := -5 }

/-- A bronze forecast row. -/
def sampleForecastRow (c : String) (d : Date) (mn mx : ℚ) : ForecastRow :=
  { city := c, date := d, min_temp := mn, max_temp := mx, unit := "F",
    day_icon := 1, day_phrase := "Sunny", night_icon := 33, night_phrase := "Clear" }

/-- A bronze city-detail row. -/
def sampleDetailRow (c cid : String) : CityDetailRow :=
  { city := c, country := "Peru", countryID := cid, countryEnglishName := "Peru",
    latitude := -12, longitude := -77, gmtOffset := -5 }

/-- Bronze forecast read with one row per city for Lima and Quito. -/
def exForecasts : List ForecastRow :=
  [sampleForecastRow "Lima" ⟨2024, 6, 1⟩ 50 212,
   sampleForecastRow "Quito" ⟨2024, 6, 1⟩ 59 212]

/-- Bronze city-detail read holding a row for Lima only. -/
def exDetails : List CityDetailRow := [sampleDetailRow "Lima" "PE"]

/-- Silver row produced for the Lima forecast joined to its detail row. -/
def exRowLima : SilverRow :=
  { City := "Lima", date := ⟨2024, 6, 1⟩, min_temp_F := 50, min_temp_C := 10,
    avg_temp_min_C := 25/2, max_temp_F := 212, max_temp_C := 100,
    avg_temp_max_C := 100, pais_id := some "PE", pais_nombre := some "Peru",
    geo_lat := some (-12), geo_lon := some (-77), gmt_utc := some (-5) }

/-- Silver row produced for the Quito forecast, kept with null detail
columns because no city-detail row matches. -/
def exRowQuito : SilverRow :=
  { City := "Quito", date := ⟨2024, 6, 1⟩, min_temp_F := 59, min_temp_C := 15,
    avg_temp_min_C := 25/2, max_temp_F := 212, max_temp_C := 100,
    avg_temp_max_C := 100, pais_id := none, pais_nombre := none,
    geo_lat := none, geo_lon := none, gmt_utc := none }

/-- Silver output for exForecasts joined to exDetails. -/
def exOut : List SilverRow := [exRowLima, exRowQuito]

/-- Bronze forecast read with a single Lima row. -/
def dupForecasts : List ForecastRow := [sampleForecastRow "Lima" ⟨2024, 6, 1⟩ 50 212]

/-- Bronze city-detail read holding two snapshots for Lima, as accumulates
after two full-refresh runs. -/
def dupDetails : List CityDetailRow :=
  [sampleDetailRow "Lima" "PE", sampleDetailRow "Lima" "PE2"]

/-- First silver row for dupForecasts joined to dupDetails. -/
def dupRow1 : SilverRow :=
  { City := "Lima", date := ⟨2024, 6, 1⟩, min_temp_F := 50, min_temp_C := 10,
    avg_temp_min_C := 10, max_temp_F := 212, max_temp_C := 100,
    avg_temp_max_C := 100, pais_id := some "PE", pais_nombre := some "Peru",
    geo_lat := some (-12), geo_lon := some (-77), gmt_utc := some (-5) }

/-- Second silver row for dupForecasts joined to dupDetails: the same single
forecast row joined to the second Lima snapshot. -/
def dupRow2 : SilverRow :=
  { City := "Lima", date := ⟨2024, 6, 1⟩, min_temp_F := 50, min_temp_C := 10,
    avg_temp_min_C := 10, max_temp_F := 212, max_temp_C := 100,
    avg_temp_max_C := 100, pais_id := some "PE2", pais_nombre := some "Peru",
    geo_lat := some (-12), geo_lon := some (-77), gmt_utc := some (-5) }

/-- Fresh storage: no watermark file, all three datasets empty. -/
def emptyStorage : Storage := ⟨.missing, [], [], []⟩

/-- A city whose location search fails: the whole city is skipped. -/
def skipFetch : CityFetch :=
  { city := "Lima", location := .requestError, forecast := .requestError,
    details := .requestError }

/-- Storage after running the pipeline on emptyStorage with skipFetch. -/
def afterSkipStorage : Storage := ⟨.present (.ok []), [], [], []⟩

/-- A run in which Lima resolves, its forecast is dated d and its detail
fetch fails. -/
def stepFetch (d : Date) : CityFetch :=
  { city := "Lima", location := .ok ["K1"], forecast := .ok (limaPayload d),
    details := .requestError }

/-- Storage after two runs of stepFetch dated 2024-06-01 then 2024-06-02
starting from emptyStorage. -/
def twoRunStorage : Storage :=
  ⟨.present (.ok [("Lima", ⟨2024, 6, 2⟩)]),
   [mkForecastRow "Lima" ⟨2024, 6, 1⟩ (limaPayload ⟨2024, 6, 1⟩),
    mkForecastRow "Lima" ⟨2024, 6, 2⟩ (limaPayload ⟨2024, 6, 2⟩)], [], []⟩

/-- Lima with a malformed forecast date string. -/
def badFetch : CityFetch :=
  { city := "Lima", location := .ok ["K1"], forecast := .ok malformedPayload,
    details := .ok sampleDetail }

/-- Quito with a well-formed forecast, queued after badFetch. -/
def goodQuito : CityFetch :=
  { city := "Quito", location := .ok ["K2"], forecast := .ok (limaPayload ⟨2024, 6, 1⟩),
    details := .ok sampleDetail }

/-- Storage whose persisted watermark holds Lima at 2024-05-01. -/
def limaStorage : Storage :=
  ⟨.present (.ok [("Lima", ⟨2024, 5, 1⟩)]), [], [], []⟩

/-- Lima whose location search fails while both fetch payloads would be
available. -/
def locFailFetch : CityFetch :=
  { city := "Lima", location := .requestError, forecast := .ok (limaPayload ⟨2024, 6, 1⟩),
    details := .ok sampleDetail }

/-- Lima whose forecast fetch fails with a RequestException. -/
def fcFailFetch : CityFetch :=
  { city := "Lima", location := .ok ["K1"], forecast := .requestError,
    details := .ok sampleDetail }

/-! Basic watermark lemmas. -/

theorem wmGet_set_self (w : Watermark) (c : String) (d : Date) :
    wmGet (wmSet w c d) c = some d := by
  induction w with
  | nil => simp [wmSet, wmGet]
  | cons kv rest ih =>
    rcases kv with ⟨k, v⟩
    by_cases h : k = c
    · simp [wmSet, wmGet, h]
    · simp [wmSet, wmGet, h, ih]

theorem wmGet_set_other (w : Watermark) (c c' : String) (d : Date) (h : c ≠ c') :
    wmGet (wmSet w c d) c' = wmGet w c' := by
  induction w with
  | nil => simp [wmSet, wmGet, h]
  | cons kv rest ih =>
    rcases kv with ⟨k, v⟩
    by_cases hk : k = c
    · subst hk
      simp [wmSet, wmGet, h]
    · by_cases hk' : k = c'
      · subst hk'
        simp [wmSet, wmGet, hk]
      · simp [wmSet, wmGet, hk, hk', ih]

theorem lastDateOf_set_self (w : Watermark) (c : String) (d : Date) :
    lastDateOf (wmSet w c d) c = d := by
  simp [lastDateOf, wmGet_set_self]

theorem lastDateOf_set_other (w : Watermark) (c c' : String) (d : Date) (h : c ≠ c') :
    lastDateOf (wmSet w c d) c' = lastDateOf w c' := by
  simp [lastDateOf, wmGet_set_other w c c' d h]

theorem wmGe_refl (w : Watermark) : wmGe w w := fun _ => Or.inl rfl

theorem wmGe_trans {w₁ w₂ w₃ : Watermark} (h₁ : wmGe w₂ w₁) (h₂ : wmGe w₃ w₂) :
    wmGe w₃ w₁ := by
  intro c
  rcases h₁ c with e₁ | l₁ <;> rcases h₂ c with e₂ | l₂
  · exact Or.inl (e₁.trans e₂)
  · exact Or.inr (e₁ ▸ l₂)
  · exact Or.inr (e₂ ▸ l₁)
  · exact Or.inr (Date.lt_trans' l₁ l₂)

/-! Characterization of one loop iteration of main. -/

theorem processCity_ok_cases (st : RunState) (cf : CityFetch) (st' : RunState)
    (h : processCity st cf = .ok st') :
    st'.country_info = st.country_info ++ dcontrib cf ∧
    ((st'.forecast_list = st.forecast_list ∧ st'.last_dates = st.last_dates) ∨
     (∃ fd d, cf.forecast = ReqResult.ok fd ∧ fd.dateParse = Except.ok d ∧
        lastDateOf st.last_dates cf.city < d ∧
        st'.forecast_list = st.forecast_list ++ [mkForecastRow cf.city d fd] ∧
        st'.last_dates = wmSet st.last_dates cf.city d)) := by
  rcases cf with ⟨city, loc, fc, det⟩
  cases hloc : get_location_key loc with
  | none =>
    simp only [processCity, hloc] at h
    cases h
    simp [dcontrib, hloc]
  | some k =>
    cases fc with
    | requestError =>
      simp only [processCity, hloc, extract_forecast] at h
      cases det <;> simp_all [get_city_details, dcontrib, hloc] <;>
        cases h <;> simp
    | ok fd =>
      cases hfd : fd.dateParse with
      | error e =>
        simp only [processCity, hloc, extract_forecast, hfd] at h
        cases h
      | ok d =>
        by_cases hlt : lastDateOf st.last_dates city < d
        · simp only [processCity, hloc, extract_forecast, hfd, if_pos hlt] at h
          cases h
          refine ⟨?_, Or.inr ⟨fd, d, rfl, hfd, hlt, rfl, rfl⟩⟩
          cases det <;> simp [get_city_details, dcontrib, hloc]
        · simp only [processCity, hloc, extract_forecast, hfd, if_neg hlt] at h
          cases h
          refine ⟨?_, Or.inl ⟨rfl, rfl⟩⟩
          cases det <;> simp [get_city_details, dcontrib, hloc]

theorem processCity_wmGe {st : RunState} {cf : CityFetch} {st' : RunState}
    (h : processCity st cf = .ok st') : wmGe st'.last_dates st.last_dates := by
  rcases processCity_ok_cases st cf st' h with ⟨-, hcase⟩
  rcases hcase with ⟨-, hw⟩ | ⟨fd, d, -, -, hlt, -, hw⟩
  · rw [hw]; exact wmGe_refl _
  · intro c
    by_cases hc : cf.city = c
    · subst hc
      rw [hw, lastDateOf_set_self]
      exact Or.inr hlt
    · rw [hw, lastDateOf_set_other _ _ _ _ hc]
      exact Or.inl rfl

theorem runCities_ok_cons {st : RunState} {cf : CityFetch} {rest : List CityFetch}
    {r : RunState} (h : runCities st (cf :: rest) = .ok r) :
    ∃ st₁, processCity st cf = .ok st₁ ∧ runCities st₁ rest = .ok r := by
  cases hpc : processCity st cf with
  | error e => simp [runCities, hpc] at h
  | ok st₁ =>
    refine ⟨st₁, rfl, ?_⟩
    simpa [runCities, hpc] using h

theorem runCities_wmGe {F : List CityFetch} :
    ∀ {st r : RunState}, runCities st F = .ok r → wmGe r.last_dates st.last_dates := by
  induction F with
  | nil =>
    intro st r h
    cases h
    exact wmGe_refl _
  | cons cf rest ih =>
    intro st r h
    rcases runCities_ok_cons h with ⟨st₁, hpc, hrest⟩
    exact wmGe_trans (processCity_wmGe hpc) (ih hrest)

/-! Machinery for the second-run (idempotence) and monotonicity claims. -/

theorem settles_mono {w w' : Watermark} {cf : CityFetch}
    (h : settles w cf) (hge : wmGe w' w) : settles w' cf := by
  intro fd d hloc hfc hfd
  exact Date.not_lt_mono (h fd d hloc hfc hfd) (hge cf.city)

theorem processCity_settles {st : RunState} {cf : CityFetch} {st' : RunState}
    (h : processCity st cf = .ok st') : settles st'.last_dates cf := by
  intro fd d hloc hfc hfd
  rcases cf with ⟨city, loc, fc, det⟩
  cases hl : get_location_key loc with
  | none => exact absurd hl hloc
  | some k =>
    cases hfc
    simp only [processCity, hl, extract_forecast, hfd] at h
    by_cases hlt : lastDateOf st.last_dates city < d
    · rw [if_pos hlt] at h
      cases h
      simp only [lastDateOf_set_self]
      exact Date.not_lt_self d
    · rw [if_neg hlt] at h
      cases h
      exact hlt

theorem processCity_wellformed {st : RunState} {cf : CityFetch} {st' : RunState}
    (h : processCity st cf = .ok st') : wellformedFetch cf := by
  intro hloc fd hfc
  rcases cf with ⟨city, loc, fc, det⟩
  cases hl : get_location_key loc with
  | none => exact absurd hl hloc
  | some k =>
    cases hfc
    cases hfd : fd.dateParse with
    | ok d => exact ⟨d, rfl⟩
    | error e =>
      simp only [processCity, hl, extract_forecast, hfd] at h
      exact Except.noConfusion h

theorem runCities_settles {F : List CityFetch} :
    ∀ {st r : RunState}, runCities st F = .ok r →
      ∀ cf ∈ F, settles r.last_dates cf ∧ wellformedFetch cf := by
  induction F with
  | nil => intro st r h cf hcf; cases hcf
  | cons cf₀ rest ih =>
    intro st r h cf hcf
    rcases runCities_ok_cons h with ⟨st₁, hpc, hrest⟩
    rcases List.mem_cons.mp hcf with rfl | hcf
    · exact ⟨settles_mono (processCity_settles hpc) (runCities_wmGe hrest),
        processCity_wellformed hpc⟩
    · exact ih hrest cf hcf

/-- A settled city is a no-op on the forecast side of the state: its
iteration only appends its (watermark-independent) city-detail contribution. -/
theorem processCity_settled {w : Watermark} {cf : CityFetch}
    (hs : settles w cf) (hw : wellformedFetch cf) (fl : List ForecastRow)
    (ci : List CityDetailRow) :
    processCity ⟨fl, ci, w⟩ cf = .ok ⟨fl, ci ++ dcontrib cf, w⟩ := by
  rcases cf with ⟨city, loc, fc, det⟩
  cases hl : get_location_key loc with
  | none =>
    simp [processCity, hl, dcontrib]
  | some k =>
    have hloc : get_location_key loc ≠ none := by simp [hl]
    cases fc with
    | requestError =>
      simp only [processCity, hl, extract_forecast]
      cases det <;> simp [get_city_details, dcontrib, hl]
    | ok fd =>
      rcases hw hloc fd rfl with ⟨d, hfd⟩
      have hnlt : ¬ lastDateOf w city < d := hs fd d hloc rfl hfd
      simp only [processCity, hl, extract_forecast, hfd, if_neg hnlt]
      cases det <;> simp [get_city_details, dcontrib, hl]

theorem runCities_settled {F : List CityFetch} :
    ∀ {w : Watermark}, (∀ cf ∈ F, settles w cf ∧ wellformedFetch cf) →
      ∀ fl ci, runCities ⟨fl, ci, w⟩ F = .ok ⟨fl, ci ++ dcontribAll F, w⟩ := by
  induction F with
  | nil => intro w h fl ci; simp [runCities, dcontribAll]
  | cons cf rest ih =>
    intro w h fl ci
    have hcf := h cf (by simp)
    have hrest : ∀ cf' ∈ rest, settles w cf' ∧ wellformedFetch cf' := by
      intro cf' hcf'
      exact h cf' (by simp [hcf'])
    rw [runCities, processCity_settled hcf.1 hcf.2 fl ci]
    show runCities ⟨fl, ci ++ dcontrib cf, w⟩ rest =
      Except.ok ⟨fl, ci ++ dcontribAll (cf :: rest), w⟩
    rw [ih hrest fl (ci ++ dcontrib cf)]
    simp [dcontribAll, List.append_assoc]

/-- The city-detail batch appended in a run is independent of the watermark:
it is exactly the concatenated per-city contributions. -/
theorem runCities_country {F : List CityFetch} :
    ∀ {st r : RunState}, runCities st F = .ok r →
      r.country_info = st.country_info ++ dcontribAll F := by
  induction F with
  | nil =>
    intro st r h
    cases h
    simp [dcontribAll]
  | cons cf rest ih =>
    intro st r h
    rcases runCities_ok_cons h with ⟨st₁, hpc, hrest⟩
    rcases processCity_ok_cases st cf st₁ hpc with ⟨hci, -⟩
    rw [ih hrest, hci]
    simp [dcontribAll, List.append_assoc]

/-- Decomposition of the loop over an appended city list. -/
theorem runCities_append (l₁ l₂ : List CityFetch) :
    ∀ s : RunState, runCities s (l₁ ++ l₂) =
      match runCities s l₁ with
      | .error e => .error e
      | .ok s' => runCities s' l₂ := by
  induction l₁ with
  | nil => intro s; simp [runCities]
  | cons cf rest ih =>
    intro s
    cases hpc : processCity s cf with
    | error e => simp [runCities, hpc]
    | ok s₁ => simp [runCities, hpc, ih s₁]

/-! Decomposition of one full run of main. -/

theorem runPipeline_ok {st : Storage} {F : List CityFetch} {st' : Storage}
    (h : runPipeline st F = .ok st') :
    ∃ w₀ r, load_last_extracted_dates st.wmFile = .ok w₀ ∧
      runCities ⟨[], [], w₀⟩ F = .ok r ∧
      st'.wmFile = save_last_extracted_dates r.last_dates ∧
      st'.bronze_forecasts = st.bronze_forecasts ++ r.forecast_list ∧
      st'.bronze_details = st.bronze_details ++ r.country_info ∧
      ((transform_data st'.bronze_forecasts st'.bronze_details = none ∧
          st'.silver = st.silver) ∨
        (∃ rows, transform_data st'.bronze_forecasts st'.bronze_details = some rows ∧
          st'.silver = st.silver ++ rows)) := by
  cases hld : load_last_extracted_dates st.wmFile with
  | error e => simp [runPipeline, hld] at h
  | ok w₀ =>
    cases hrc : runCities ⟨[], [], w₀⟩ F with
    | error e => simp [runPipeline, hld, hrc] at h
    | ok r =>
      have hbf : (if r.forecast_list.isEmpty then st.bronze_forecasts
          else st.bronze_forecasts ++ r.forecast_list) =
          st.bronze_forecasts ++ r.forecast_list := by
        by_cases hfe : r.forecast_list.isEmpty
        · have hnil : r.forecast_list = [] := by simpa using hfe
          rw [if_pos hfe, hnil, List.append_nil]
        · rw [if_neg hfe]
      refine ⟨w₀, r, rfl, hrc, ?_⟩
      simp only [runPipeline, hld, hrc] at h
      rw [hbf] at h
      cases htr : transform_data (st.bronze_forecasts ++ r.forecast_list)
          (st.bronze_details ++ r.country_info) with
      | none =>
        rw [htr] at h
        have hst : Storage.mk (save_last_extracted_dates r.last_dates)
            (st.bronze_forecasts ++ r.forecast_list)
            (st.bronze_details ++ r.country_info) st.silver = st' :=
          Except.ok.inj h
        subst hst
        exact ⟨rfl, rfl, rfl, Or.inl ⟨htr, rfl⟩⟩
      | some rows =>
        rw [htr] at h
        have hst : Storage.mk (save_last_extracted_dates r.last_dates)
            (st.bronze_forecasts ++ r.forecast_list)
            (st.bronze_details ++ r.country_info) (st.silver ++ rows) = st' :=
          Except.ok.inj h
        subst hst
        exact ⟨rfl, rfl, rfl, Or.inr ⟨rows, htr, rfl⟩⟩

/-! Lemmas about the left join of the silver transform. -/

theorem mergeProject_cons (ds : List CityDetailRow) (a b : ℚ) (l : ForecastRow)
    (ls : List ForecastRow) :
    mergeProject ds a b (l :: ls) =
      (match ds.filter (fun r => r.city == l.city) with
       | [] => [silver_of l none a b]
       | ms => ms.map (fun r => silver_of l (some r) a b)) ++ mergeProject ds a b ls := rfl

theorem mergeProject_mem {ds : List CityDetailRow} {a b : ℚ} :
    ∀ {fs : List ForecastRow} {row : SilverRow}, row ∈ mergeProject ds a b fs →
      ∃ l ∈ fs, (ds.filter (fun r => r.city == l.city) = [] ∧ row = silver_of l none a b) ∨
        (∃ m ∈ ds.filter (fun r => r.city == l.city), row = silver_of l (some m) a b) := by
  intro fs
  induction fs with
  | nil =>
    intro row h
    simp [mergeProject] at h
  | cons l ls ih =>
    intro row h
    rw [mergeProject_cons] at h
    rcases List.mem_append.mp h with hb | hr
    · cases hms : ds.filter (fun r => r.city == l.city) with
      | nil =>
        rw [hms] at hb
        have : row = silver_of l none a b := by simpa using hb
        exact ⟨l, by simp, Or.inl ⟨hms, this⟩⟩
      | cons m ms =>
        rw [hms] at hb
        simp only [List.mem_map] at hb
        rcases hb with ⟨m', hm', rfl⟩
        exact ⟨l, by simp, Or.inr ⟨m', by rw [hms]; exact hm', rfl⟩⟩
    · rcases ih hr with ⟨l', hl', hcase⟩
      exact ⟨l', by simp [hl'], hcase⟩

theorem length_filter_city_map (l : ForecastRow) (a b : ℚ) (c : String)
    (xs : List CityDetailRow) :
    ((xs.map (fun r => silver_of l (some r) a b)).filter
        (fun row => row.City == c)).length =
      if l.city == c then xs.length else 0 := by
  rw [List.filter_map]
  by_cases hc : (l.city == c) = true
  · simp [Function.comp, silver_of, hc]
  · simp [Function.comp, silver_of, hc]

/-- Row count of the silver output per city: the number of forecast rows for
that city times the number of matching city-detail rows (at least one output
row per forecast row: an unmatched forecast row is kept with null details). -/
theorem mergeProject_count (ds : List CityDetailRow) (a b : ℚ) (c : String) :
    ∀ fs : List ForecastRow,
      ((mergeProject ds a b fs).filter (fun r => r.City == c)).length =
        (fs.filter (fun r => r.city == c)).length *
          max 1 (ds.filter (fun r => r.city == c)).length := by
  intro fs
  induction fs with
  | nil => simp [mergeProject]
  | cons l ls ih =>
    rw [mergeProject_cons, List.filter_append, List.length_append, ih]
    by_cases hc : l.city = c
    · subst hc
      cases hms : ds.filter (fun r => r.city == l.city) with
      | nil =>
        have hred : (match ([] : List CityDetailRow) with
            | [] => [silver_of l none a b]
            | ms => ms.map (fun r => silver_of l (some r) a b)) =
            [silver_of l none a b] := rfl
        rw [hred]
        simp [List.filter_cons, silver_of]
        omega
      | cons m ms =>
        have hred : (match m :: ms with
            | [] => [silver_of l none a b]
            | ms => ms.map (fun r => silver_of l (some r) a b)) =
            (m :: ms).map (fun r => silver_of l (some r) a b) := rfl
        rw [hred, length_filter_city_map]
        have hmax : (1 ⊔ (m :: ms).length) = (m :: ms).length :=
          max_eq_right (by simp)
        rw [hmax]
        rw [List.filter_cons_of_pos (by simp)]
        simp only [beq_self_eq_true, if_true, List.length_cons]
        ring
    · have hl : (l.city == c) = false := by simp [hc]
      cases hms : ds.filter (fun r => r.city == l.city) with
      | nil =>
        have hred : (match ([] : List CityDetailRow) with
            | [] => [silver_of l none a b]
            | ms => ms.map (fun r => silver_of l (some r) a b)) =
            [silver_of l none a b] := rfl
        rw [hred]
        simp [List.filter_cons, silver_of, hl]
      | cons m ms =>
        have hred : (match m :: ms with
            | [] => [silver_of l none a b]
            | ms => ms.map (fun r => silver_of l (some r) a b)) =
            (m :: ms).map (fun r => silver_of l (some r) a b) := rfl
        rw [hred, length_filter_city_map]
        simp [hl, List.filter_cons]

/-! Accepted forecast dates within and across runs. -/

theorem runCities_accepted {F : List CityFetch} :
    ∀ {st r : RunState}, runCities st F = .ok r →
      ∃ al, r.forecast_list = st.forecast_list ++ al ∧
        ∀ c, (datesFor c al).Pairwise (· < ·) ∧
          ∀ d ∈ datesFor c al,
            lastDateOf st.last_dates c < d ∧ ¬ lastDateOf r.last_dates c < d := by
  induction F with
  | nil =>
    intro st r h
    cases h
    exact ⟨[], by simp, fun c => by simp [datesFor]⟩
  | cons cf rest ih =>
    intro st r h
    rcases runCities_ok_cons h with ⟨st₁, hpc, hrest⟩
    rcases ih hrest with ⟨al₁, hfl₁, hbounds₁⟩
    have hge : wmGe r.last_dates st₁.last_dates := runCities_wmGe hrest
    rcases processCity_ok_cases st cf st₁ hpc with ⟨-, hcase⟩
    rcases hcase with ⟨hfl, hw⟩ | ⟨fd, d, hfc, hfd, hlt, hfl, hw⟩
    · refine ⟨al₁, by rw [hfl₁, hfl], ?_⟩
      intro c
      rcases hbounds₁ c with ⟨hp, hb⟩
      refine ⟨hp, fun d hd => ?_⟩
      rcases hb d hd with ⟨h1, h2⟩
      rw [hw] at h1
      exact ⟨h1, h2⟩
    · refine ⟨mkForecastRow cf.city d fd :: al₁, by simp [hfl₁, hfl], ?_⟩
      intro c
      rcases hbounds₁ c with ⟨hp, hb⟩
      by_cases hcc : cf.city = c
      · subst hcc
        have hdates : datesFor cf.city (mkForecastRow cf.city d fd :: al₁) =
            d :: datesFor cf.city al₁ := by
          simp [datesFor, mkForecastRow, List.filter_cons]
        rw [hdates]
        have hw1 : lastDateOf st₁.last_dates cf.city = d := by
          rw [hw, lastDateOf_set_self]
        have hstep : ∀ d' ∈ datesFor cf.city al₁, d < d' := by
          intro d' hd'
          have h1 := (hb d' hd').1
          rwa [hw1] at h1
        refine ⟨List.Pairwise.cons hstep hp, ?_⟩
        intro d' hd'
        rcases List.mem_cons.mp hd' with rfl | hd'
        · refine ⟨hlt, ?_⟩
          have hnlt : ¬ lastDateOf st₁.last_dates cf.city < d' := by
            rw [hw1]
            exact Date.not_lt_self _
          exact Date.not_lt_mono hnlt (hge cf.city)
        · rcases hb d' hd' with ⟨h1, h2⟩
          rw [hw1] at h1
          exact ⟨Date.lt_trans' hlt h1, h2⟩
      · have hdates : datesFor c (mkForecastRow cf.city d fd :: al₁) = datesFor c al₁ := by
          simp [datesFor, mkForecastRow, List.filter_cons, hcc]
        rw [hdates]
        refine ⟨hp, fun d' hd' => ?_⟩
        rcases hb d' hd' with ⟨h1, h2⟩
        rw [hw, lastDateOf_set_other _ _ _ _ hcc] at h1
        exact ⟨h1, h2⟩

/-- Invariant carried across runs: the per-city dates already in bronze are
strictly increasing and dominated by the persisted watermark. -/
theorem runPipeline_datesInv {c : String} {st : Storage} {F : List CityFetch}
    {st' : Storage} (hrun : runPipeline st F = .ok st')
    (hp : (datesFor c st.bronze_forecasts).Pairwise (· < ·))
    (hb : ∀ w, load_last_extracted_dates st.wmFile = .ok w →
      ∀ d ∈ datesFor c st.bronze_forecasts, ¬ lastDateOf w c < d) :
    (datesFor c st'.bronze_forecasts).Pairwise (· < ·) ∧
      ∀ w, load_last_extracted_dates st'.wmFile = .ok w →
        ∀ d ∈ datesFor c st'.bronze_forecasts, ¬ lastDateOf w c < d := by
  rcases runPipeline_ok hrun with ⟨w₀, r, hld, hrc, hwm, hbf, -, -⟩
  rcases runCities_accepted hrc with ⟨al, hfl, hbounds⟩
  have hal : r.forecast_list = al := by simpa using hfl
  rcases hbounds c with ⟨hpal, hbal⟩
  have hge : wmGe r.last_dates w₀ := runCities_wmGe hrc
  have hsplit : datesFor c st'.bronze_forecasts =
      datesFor c st.bronze_forecasts ++ datesFor c al := by
    rw [hbf, hal]
    simp [datesFor, List.filter_append]
  rw [hsplit]
  have hold : ∀ d ∈ datesFor c st.bronze_forecasts, ¬ lastDateOf w₀ c < d := hb w₀ hld
  constructor
  · rw [List.pairwise_append]
    refine ⟨hp, hpal, ?_⟩
    intro x hx y hy
    exact Date.lt_of_not_lt_of_lt (hold x hx) ((hbal y hy).1)
  · intro w hw d hd
    rw [hwm] at hw
    have hred : load_last_extracted_dates (save_last_extracted_dates r.last_dates) =
        .ok r.last_dates := rfl
    rw [hred] at hw
    have hwr := Except.ok.inj hw
    subst hwr
    rcases List.mem_append.mp hd with hdo | hdn
    · exact Date.not_lt_mono (hold d hdo) (hge c)
    · exact (hbal d hdn).2

theorem pipelineRuns_ok_cons {st : Storage} {f : List CityFetch}
    {fs : List (List CityFetch)} {r : Storage}
    (h : pipelineRuns st (f :: fs) = .ok r) :
    ∃ st', runPipeline st f = .ok st' ∧ pipelineRuns st' fs = .ok r := by
  cases hp : runPipeline st f with
  | error e => simp [pipelineRuns, hp] at h
  | ok st' =>
    refine ⟨st', rfl, ?_⟩
    simpa [pipelineRuns, hp] using h

/-! Claim theorems. -/

/-- C1: for every city, a fetched forecast is accepted iff its date is
strictly greater than the city's watermark date (default far-past sentinel);
on acceptance the watermark entry is set to the forecast date and the record
is returned, otherwise None is returned and the watermark entry is left
unchanged. -/
theorem claim_C1 (w : Watermark) (city : String) (fd : ForecastPayload) (d : Date)
    (hd : fd.dateParse = Except.ok d) :
    (lastDateOf w city < d →
      extract_forecast (.ok fd) city w =
        .ok (some (mkForecastRow city d fd), wmSet w city d)) ∧
    (¬ lastDateOf w city < d →
      extract_forecast (.ok fd) city w = .ok (none, w)) := by
  constructor
  · intro hlt
    simp [extract_forecast, hd, hlt]
  · intro hlt
    simp [extract_forecast, hd, hlt]

/-- C1 witness: with the watermark holding Lima at 2024-05-01, a forecast
dated 2024-05-01 is rejected with the watermark unchanged, and one dated
2024-05-02 is accepted with the watermark entry becoming 2024-05-02. -/
theorem claim_C1_witness :
    extract_forecast (.ok (limaPayload ⟨2024, 5, 1⟩)) "Lima" [("Lima", ⟨2024, 5, 1⟩)] =
      .ok (none, [("Lima", ⟨2024, 5, 1⟩)]) ∧
    extract_forecast (.ok (limaPayload ⟨2024, 5, 2⟩)) "Lima" [("Lima", ⟨2024, 5, 1⟩)] =
      .ok (some (mkForecastRow "Lima" ⟨2024, 5, 2⟩ (limaPayload ⟨2024, 5, 2⟩)),
           wmSet [("Lima", ⟨2024, 5, 1⟩)] "Lima" ⟨2024, 5, 2⟩) ∧
    wmSet [("Lima", ⟨2024, 5, 1⟩)] "Lima" ⟨2024, 5, 2⟩ = [("Lima", ⟨2024, 5, 2⟩)] :=
  ⟨(claim_C1 [("Lima", ⟨2024, 5, 1⟩)] "Lima" (limaPayload ⟨2024, 5, 1⟩) ⟨2024, 5, 1⟩ rfl).2
      (by decide),
   (claim_C1 [("Lima", ⟨2024, 5, 1⟩)] "Lima" (limaPayload ⟨2024, 5, 2⟩) ⟨2024, 5, 2⟩ rfl).1
      (by decide),
   by decide⟩

/-- C8: loading the watermark store returns the empty mapping when the file
is missing, while malformed persisted content is a fatal read error that also
aborts a whole pipeline run. -/
theorem claim_C8 :
    load_last_extracted_dates .missing = .ok [] ∧
    (∀ e, load_last_extracted_dates (.present (.error e)) = .error PyExn.jsonDecodeError) ∧
    (∀ (st : Storage) (F : List CityFetch) (e : JsonError),
      st.wmFile = .present (.error e) →
      runPipeline st F = .error PyExn.jsonDecodeError) := by
  refine ⟨rfl, fun e => rfl, ?_⟩
  intro st F e hwm
  simp [runPipeline, hwm, load_last_extracted_dates]

/-- C8 witness: the three parts at concrete file states. -/
theorem claim_C8_witness :
    load_last_extracted_dates .missing = .ok [] ∧
    load_last_extracted_dates (.present (.error .decodeError)) =
      .error PyExn.jsonDecodeError ∧
    runPipeline ⟨.present (.error .decodeError), [], [], []⟩ [] =
      .error PyExn.jsonDecodeError :=
  ⟨claim_C8.1, claim_C8.2.1 .decodeError,
   claim_C8.2.2 ⟨.present (.error .decodeError), [], [], []⟩ [] .decodeError rfl⟩

/-- C9: per-city failures are contained: a failed location resolution skips
both sub-operations for that city and the loop continues with the rest; a
forecast request failure leaves the forecast list and watermark untouched
while the city-detail sub-operation still runs; a detail request failure
leaves the city-detail list untouched. -/
theorem claim_C9 :
    (∀ (st : RunState) (cf : CityFetch) (rest : List CityFetch),
      get_location_key cf.location = none →
      runCities st (cf :: rest) = runCities st rest) ∧
    (∀ (st : RunState) (cf : CityFetch) (rest : List CityFetch) (k : String),
      get_location_key cf.location = some k → cf.forecast = ReqResult.requestError →
      runCities st (cf :: rest) =
        runCities ⟨st.forecast_list, st.country_info ++ dcontrib cf, st.last_dates⟩ rest) ∧
    (∀ (st : RunState) (cf : CityFetch) (st' : RunState) (k : String),
      get_location_key cf.location = some k → cf.details = ReqResult.requestError →
      processCity st cf = .ok st' → st'.country_info = st.country_info) := by
  refine ⟨?_, ?_, ?_⟩
  · intro st cf rest hloc
    simp [runCities, processCity, hloc]
  · intro st cf rest k hloc hfc
    rcases cf with ⟨city, loc, fc, det⟩
    cases hfc
    cases det <;>
      simp [runCities, processCity, hloc, extract_forecast, get_city_details, dcontrib]
  · intro st cf st' k hloc hdet hpc
    rcases processCity_ok_cases st cf st' hpc with ⟨hci, -⟩
    rw [hci, dcontrib, hloc, hdet]
    simp [get_city_details]

/-- C9 witness: the three containment behaviours at concrete cities. -/
theorem claim_C9_witness :
    runCities ⟨[], [], []⟩ [locFailFetch] = runCities ⟨[], [], []⟩ [] ∧
    runCities ⟨[], [], []⟩ [fcFailFetch] =
      runCities ⟨[], [] ++ dcontrib fcFailFetch, []⟩ [] ∧
    (RunState.mk [mkForecastRow "Lima" ⟨2024, 6, 1⟩ (limaPayload ⟨2024, 6, 1⟩)] []
        [("Lima", ⟨2024, 6, 1⟩)]).country_info = ([] : List CityDetailRow) :=
  ⟨claim_C9.1 ⟨[], [], []⟩ locFailFetch [] rfl,
   claim_C9.2.1 ⟨[], [], []⟩ fcFailFetch [] "K1" rfl rfl,
   claim_C9.2.2 ⟨[], [], []⟩ (stepFetch ⟨2024, 6, 1⟩)
     ⟨[mkForecastRow "Lima" ⟨2024, 6, 1⟩ (limaPayload ⟨2024, 6, 1⟩)], [],
       [("Lima", ⟨2024, 6, 1⟩)]⟩ "K1" rfl rfl (by with_unfolding_all rfl)⟩

/-- C10: when either bronze dataset read by the silver transform is empty the
transform yields None, and a None transform leaves the silver dataset of a
completed run untouched. -/
theorem claim_C10 :
    (∀ ds, transform_data [] ds = none) ∧
    (∀ fs, transform_data fs [] = none) ∧
    (∀ (st : Storage) (F : List CityFetch) (st' : Storage),
      runPipeline st F = .ok st' →
      transform_data st'.bronze_forecasts st'.bronze_details = none →
      st'.silver = st.silver) := by
  refine ⟨fun ds => rfl, fun fs => ?_, ?_⟩
  · simp [transform_data]
  · intro st F st' h htr
    rcases runPipeline_ok h with ⟨w₀, r, -, -, -, -, -, hsilver⟩
    rcases hsilver with ⟨-, hs⟩ | ⟨rows, htr', -⟩
    · exact hs
    · rw [htr] at htr'
      exact Option.noConfusion htr'

/-- C10 witness: a nonempty forecast read against an empty detail read (and
conversely) yields no silver output, and a run whose transform yields None
leaves silver unchanged. -/
theorem claim_C10_witness :
    transform_data [] dupDetails = none ∧
    transform_data dupForecasts [] = none ∧
    afterSkipStorage.silver = emptyStorage.silver :=
  ⟨claim_C10.1 dupDetails, claim_C10.2.1 dupForecasts,
   claim_C10.2.2 emptyStorage [skipFetch] afterSkipStorage
     (by with_unfolding_all rfl) (by with_unfolding_all rfl)⟩

/-- C2 counterexample: with one Lima forecast row and two Lima city-detail
snapshots in bronze (the normal state after two full-refresh runs), the left
join emits the forecast row twice, so a forecast row does not always appear
exactly once in the silver output. -/
theorem claim_C2_counterexample :
    ¬ ∀ (fs : List ForecastRow) (ds : List CityDetailRow) (out : List SilverRow),
        transform_data fs ds = some out →
        ∀ c, (out.filter (fun r => r.City == c)).length =
          (fs.filter (fun r => r.city == c)).length := by
  intro h
  have hx := h dupForecasts dupDetails [dupRow1, dupRow2]
    (by with_unfolding_all rfl) "Lima"
  revert hx
  decide

/-- C2 amended: every forecast row is kept (never dropped) by the silver
transform when it produces output: per city, the silver row count is the
forecast row count times max 1 (detail row count) — exactly once per forecast
row when at most one detail snapshot matches, duplicated once per extra
matching snapshot — and when no detail row matches the city, its rows carry
null detail fields. -/
theorem claim_C2 (fs : List ForecastRow) (ds : List CityDetailRow)
    (out : List SilverRow) (h : transform_data fs ds = some out) (c : String) :
    (out.filter (fun r => r.City == c)).length =
      (fs.filter (fun r => r.city == c)).length *
        max 1 (ds.filter (fun r => r.city == c)).length ∧
    ∀ row ∈ out, row.City = c → ds.filter (fun r => r.city == c) = [] →
      row.pais_id = none ∧ row.pais_nombre = none ∧ row.geo_lat = none ∧
      row.geo_lon = none ∧ row.gmt_utc = none := by
  have hout : out = mergeProject ds
      (round1 (meanQ (fs.map (fun r => round1 (toCelsius r.min_temp)))))
      (round1 (meanQ (fs.map (fun r => round1 (toCelsius r.max_temp))))) fs := by
    by_cases hcond : (!fs.isEmpty && !ds.isEmpty) = true
    · simp only [transform_data, hcond, if_true] at h
      exact (Option.some.inj h).symm
    · simp only [transform_data, hcond, if_false, Bool.not_eq_true] at h
      exact Option.noConfusion h
  subst hout
  constructor
  · exact mergeProject_count ds _ _ c fs
  · intro row hrow hc hnil
    rcases mergeProject_mem hrow with ⟨l, hl, hcase⟩
    rcases hcase with ⟨hms, rfl⟩ | ⟨m, hm, rfl⟩
    · simp [silver_of]
    · exfalso
      have hlc : l.city = c := hc
      rw [hlc, hnil] at hm
      cases hm

/-- C2 witness: the amended count at the duplicated-snapshot input (one Lima
forecast row, two Lima detail rows, two silver rows). -/
theorem claim_C2_witness :
    (([dupRow1, dupRow2].filter (fun r => r.City == "Lima")).length =
      (dupForecasts.filter (fun r => r.city == "Lima")).length *
        max 1 (dupDetails.filter (fun r => r.city == "Lima")).length) ∧
    ∀ row ∈ [dupRow1, dupRow2], row.City = "Lima" →
      dupDetails.filter (fun r => r.city == "Lima") = [] →
      row.pais_id = none ∧ row.pais_nombre = none ∧ row.geo_lat = none ∧
      row.geo_lon = none ∧ row.gmt_utc = none :=
  claim_C2 dupForecasts dupDetails [dupRow1, dupRow2]
    (by with_unfolding_all rfl) "Lima"

/-- C3 counterexample: a malformed forecast date makes extract_forecast raise
(ValueError is not a RequestException, so the except clause does not catch
it) instead of returning a logged rejection, and with Lima's malformed
forecast queued before Quito the whole run aborts instead of continuing. -/
theorem claim_C3_counterexample :
    extract_forecast (.ok malformedPayload) "Lima" [("Lima", ⟨2024, 5, 1⟩)] =
      .error PyExn.valueError ∧
    runPipeline limaStorage [badFetch, goodQuito] = .error PyExn.valueError := by
  constructor
  · rfl
  · with_unfolding_all rfl

/-- C3 amended: on a malformed forecast date string the watermark entry is
indeed never advanced, but the record is not merely rejected and logged: the
ValueError from strptime propagates out of extract_forecast, the city's loop
iteration raises, and the run aborts without processing the remaining cities
or saving the watermark file. -/
theorem claim_C3 (cf : CityFetch) (k : String) (fd : ForecastPayload)
    (hloc : get_location_key cf.location = some k) (hfc : cf.forecast = ReqResult.ok fd)
    (hfd : fd.dateParse = Except.error ()) :
    (∀ st : RunState, processCity st cf = .error PyExn.valueError) ∧
    (∀ (sto : Storage) (w : Watermark) (pre post : List CityFetch) (s₁ : RunState),
      load_last_extracted_dates sto.wmFile = .ok w →
      runCities ⟨[], [], w⟩ pre = .ok s₁ →
      runPipeline sto (pre ++ cf :: post) = .error PyExn.valueError) := by
  have hstep : ∀ st : RunState, processCity st cf = .error PyExn.valueError := by
    intro st
    simp [processCity, hloc, extract_forecast, hfc, hfd]
  refine ⟨hstep, ?_⟩
  intro sto w pre post s₁ hld hpre
  have h1 : runCities (⟨[], [], w⟩ : RunState) (pre ++ cf :: post) =
      .error PyExn.valueError := by
    rw [runCities_append, hpre]
    show runCities s₁ (cf :: post) = .error PyExn.valueError
    rw [runCities, hstep s₁]
  simp [runPipeline, hld, h1]

/-- C3 witness: the amended behaviour at the concrete malformed Lima fetch
followed by Quito. -/
theorem claim_C3_witness :
    processCity ⟨[], [], [("Lima", ⟨2024, 5, 1⟩)]⟩ badFetch = .error PyExn.valueError ∧
    runPipeline limaStorage ([] ++ badFetch :: [goodQuito]) = .error PyExn.valueError :=
  ⟨(claim_C3 badFetch "K1" malformedPayload rfl rfl rfl).1 ⟨[], [], [("Lima", ⟨2024, 5, 1⟩)]⟩,
   (claim_C3 badFetch "K1" malformedPayload rfl rfl rfl).2 limaStorage
     [("Lima", ⟨2024, 5, 1⟩)] [] [goodQuito] ⟨[], [], [("Lima", ⟨2024, 5, 1⟩)]⟩ rfl rfl⟩

/-- Unfolding of a successful transform_data call: the output is the joined,
projected dataframe built with the two batch means. -/
theorem transform_data_some {fs : List ForecastRow} {ds : List CityDetailRow}
    {out : List SilverRow} (h : transform_data fs ds = some out) :
    out = mergeProject ds
      (round1 (meanQ (fs.map (fun r => round1 (toCelsius r.min_temp)))))
      (round1 (meanQ (fs.map (fun r => round1 (toCelsius r.max_temp))))) fs := by
  by_cases hcond : (!fs.isEmpty && !ds.isEmpty) = true
  · simp only [transform_data, hcond, if_true] at h
    exact (Option.some.inj h).symm
  · simp only [transform_data, hcond, if_false, Bool.not_eq_true] at h
    exact Option.noConfusion h

/-- C4: the silver mean-temperature columns are single batch statistics of
the whole bronze forecast read, broadcast unchanged onto every output row,
and the transform of a run is applied to the full bronze dataset after the
run's append — history included, not just the new rows. -/
theorem claim_C4 :
    (∀ (fs : List ForecastRow) (ds : List CityDetailRow) (out : List SilverRow),
      transform_data fs ds = some out → ∀ row ∈ out,
        row.avg_temp_min_C =
          round1 (meanQ (fs.map (fun r => round1 (toCelsius r.min_temp)))) ∧
        row.avg_temp_max_C =
          round1 (meanQ (fs.map (fun r => round1 (toCelsius r.max_temp))))) ∧
    (∀ (st : Storage) (F : List CityFetch) (st' : Storage),
      runPipeline st F = .ok st' →
      ∃ newRows, st'.bronze_forecasts = st.bronze_forecasts ++ newRows ∧
        ((transform_data st'.bronze_forecasts st'.bronze_details = none ∧
            st'.silver = st.silver) ∨
          (∃ rows, transform_data st'.bronze_forecasts st'.bronze_details = some rows ∧
            st'.silver = st.silver ++ rows))) := by
  constructor
  · intro fs ds out h row hrow
    rw [transform_data_some h] at hrow
    rcases mergeProject_mem hrow with ⟨l, hl, hcase⟩
    rcases hcase with ⟨-, rfl⟩ | ⟨m, -, rfl⟩ <;> exact ⟨rfl, rfl⟩
  · intro st F st' h
    rcases runPipeline_ok h with ⟨w₀, r, -, -, -, hbf, -, hsil⟩
    exact ⟨r.forecast_list, hbf, hsil⟩

/-- C4 witness: the broadcast means at a concrete two-city read, and the
full-read transform of a concrete run. -/
theorem claim_C4_witness :
    (∀ row ∈ exOut,
      row.avg_temp_min_C =
        round1 (meanQ (exForecasts.map (fun r => round1 (toCelsius r.min_temp)))) ∧
      row.avg_temp_max_C =
        round1 (meanQ (exForecasts.map (fun r => round1 (toCelsius r.max_temp))))) ∧
    (∃ newRows,
      afterSkipStorage.bronze_forecasts = emptyStorage.bronze_forecasts ++ newRows ∧
      ((transform_data afterSkipStorage.bronze_forecasts
            afterSkipStorage.bronze_details = none ∧
          afterSkipStorage.silver = emptyStorage.silver) ∨
        (∃ rows, transform_data afterSkipStorage.bronze_forecasts
            afterSkipStorage.bronze_details = some rows ∧
          afterSkipStorage.silver = emptyStorage.silver ++ rows))) :=
  ⟨claim_C4.1 exForecasts exDetails exOut (by with_unfolding_all rfl),
   claim_C4.2 emptyStorage [skipFetch] afterSkipStorage (by with_unfolding_all rfl)⟩

/-- C5: the unit conversion is Celsius = (Fahrenheit - 32) * 5 / 9 with the
one-decimal rounding applied to the converted value (round1 applied after
toCelsius) for both the min and max columns, and 32 converts to exactly 0
while 212 converts to exactly 100. -/
theorem claim_C5 :
    (∀ (fs : List ForecastRow) (ds : List CityDetailRow) (out : List SilverRow),
      transform_data fs ds = some out → ∀ row ∈ out, ∃ l ∈ fs,
        row.min_temp_F = l.min_temp ∧
        row.min_temp_C = round1 (toCelsius l.min_temp) ∧
        row.max_temp_F = l.max_temp ∧
        row.max_temp_C = round1 (toCelsius l.max_temp)) ∧
    toCelsius 32 = 0 ∧ round1 (toCelsius 32) = 0 ∧
    toCelsius 212 = 100 ∧ round1 (toCelsius 212) = 100 := by
  refine ⟨?_, by with_unfolding_all rfl, by with_unfolding_all rfl,
    by with_unfolding_all rfl, by with_unfolding_all rfl⟩
  intro fs ds out h row hrow
  rw [transform_data_some h] at hrow
  rcases mergeProject_mem hrow with ⟨l, hl, hcase⟩
  rcases hcase with ⟨-, rfl⟩ | ⟨m, -, rfl⟩ <;> exact ⟨l, hl, rfl, rfl, rfl, rfl⟩

/-- C5 witness: the converted columns of a concrete silver row trace back to
its forecast row through round1 after toCelsius, and the exact endpoint
values. -/
theorem claim_C5_witness :
    (∃ l ∈ exForecasts,
      exRowLima.min_temp_F = l.min_temp ∧
      exRowLima.min_temp_C = round1 (toCelsius l.min_temp) ∧
      exRowLima.max_temp_F = l.max_temp ∧
      exRowLima.max_temp_C = round1 (toCelsius l.max_temp)) ∧
    round1 (toCelsius 32) = 0 ∧ round1 (toCelsius 212) = 100 :=
  ⟨claim_C5.1 exForecasts exDetails exOut (by with_unfolding_all rfl) exRowLima
      (List.mem_cons_self _ _),
   claim_C5.2.2.1, claim_C5.2.2.2.2⟩

/-- C6: rerunning the pipeline on the storage a successful run produced, with
the remote source answering identically, accepts zero new forecast rows and
leaves the watermark file unchanged, while the city-detail dataset gains the
same full-refresh batch again. -/
theorem claim_C6 (st : Storage) (F : List CityFetch) (st₁ : Storage)
    (h : runPipeline st F = .ok st₁) :
    ∃ st₂, runPipeline st₁ F = .ok st₂ ∧
      st₂.bronze_forecasts = st₁.bronze_forecasts ∧
      st₂.wmFile = st₁.wmFile ∧
      ∃ dr, st₁.bronze_details = st.bronze_details ++ dr ∧
        st₂.bronze_details = st₁.bronze_details ++ dr := by
  rcases runPipeline_ok h with ⟨w₀, r, hld, hrc, hwm, hbf, hbd, -⟩
  have hsw : ∀ cf ∈ F, settles r.last_dates cf ∧ wellformedFetch cf :=
    runCities_settles hrc
  have hrerun := runCities_settled hsw ([] : List ForecastRow) ([] : List CityDetailRow)
  have hld₁ : load_last_extracted_dates st₁.wmFile = .ok r.last_dates := by
    rw [hwm]
    rfl
  have hcountry : r.country_info = dcontribAll F := by
    have hc := runCities_country hrc
    simpa using hc
  have hpipe : runPipeline st₁ F =
      match transform_data st₁.bronze_forecasts
          (st₁.bronze_details ++ dcontribAll F) with
      | none => .ok ⟨save_last_extracted_dates r.last_dates, st₁.bronze_forecasts,
          st₁.bronze_details ++ dcontribAll F, st₁.silver⟩
      | some rows => .ok ⟨save_last_extracted_dates r.last_dates, st₁.bronze_forecasts,
          st₁.bronze_details ++ dcontribAll F, st₁.silver ++ rows⟩ := by
    simp [runPipeline, hld₁, hrerun]
  cases htr : transform_data st₁.bronze_forecasts
      (st₁.bronze_details ++ dcontribAll F) with
  | none =>
    rw [htr] at hpipe
    refine ⟨_, hpipe, rfl, ?_, dcontribAll F, ?_, rfl⟩
    · rw [hwm]
    · rw [hbd, hcountry]
  | some rows =>
    rw [htr] at hpipe
    refine ⟨_, hpipe, rfl, ?_, dcontribAll F, ?_, rfl⟩
    · rw [hwm]
    · rw [hbd, hcountry]

/-- C6 witness: a concrete immediate rerun. -/
theorem claim_C6_witness :
    ∃ st₂, runPipeline afterSkipStorage [skipFetch] = .ok st₂ ∧
      st₂.bronze_forecasts = afterSkipStorage.bronze_forecasts ∧
      st₂.wmFile = afterSkipStorage.wmFile ∧
      ∃ dr, afterSkipStorage.bronze_details = emptyStorage.bronze_details ++ dr ∧
        st₂.bronze_details = afterSkipStorage.bronze_details ++ dr :=
  claim_C6 emptyStorage [skipFetch] afterSkipStorage (by with_unfolding_all rfl)

/-- C7: for every fixed city, the forecast dates accepted by the incremental
filter across successive runs, with the watermark mapping saved at run end
and loaded at the next start, form a strictly increasing sequence. -/
theorem claim_C7 (st₀ : Storage) (runs : List (List CityFetch)) (stN : Storage)
    (c : String) (hempty : st₀.bronze_forecasts = [])
    (h : pipelineRuns st₀ runs = .ok stN) :
    (datesFor c stN.bronze_forecasts).Pairwise (· < ·) := by
  have H : ∀ (rs : List (List CityFetch)) (s₀ sN : Storage),
      pipelineRuns s₀ rs = .ok sN →
      (datesFor c s₀.bronze_forecasts).Pairwise (· < ·) →
      (∀ w, load_last_extracted_dates s₀.wmFile = .ok w →
        ∀ d ∈ datesFor c s₀.bronze_forecasts, ¬ lastDateOf w c < d) →
      (datesFor c sN.bronze_forecasts).Pairwise (· < ·) := by
    intro rs
    induction rs with
    | nil =>
      intro s₀ sN hh hp hb
      cases hh
      exact hp
    | cons f fs ih =>
      intro s₀ sN hh hp hb
      rcases pipelineRuns_ok_cons hh with ⟨s', h1, h2⟩
      rcases runPipeline_datesInv h1 hp hb with ⟨hp', hb'⟩
      exact ih s' sN h2 hp' hb'
  refine H runs st₀ stN h ?_ ?_
  · rw [hempty]
    simp [datesFor]
  · intro w hw d hd
    rw [hempty] at hd
    simp [datesFor] at hd

/-- C7 witness: two concrete successive runs for Lima dated 2024-06-01 then
2024-06-02 leave a strictly increasing bronze date sequence. -/
theorem claim_C7_witness :
    (datesFor "Lima" twoRunStorage.bronze_forecasts).Pairwise (· < ·) :=
  claim_C7 emptyStorage [[stepFetch ⟨2024, 6, 1⟩], [stepFetch ⟨2024, 6, 2⟩]]
    twoRunStorage "Lima" rfl (by with_unfolding_all rfl)
